import Mathlib

/-!
Verification development for the BigSearchServer engine core.

The definitions below are a shallow embedding of the Python sources:
`FileHandler/file_handler.py`, `MMapBarrel/LSMBarrel.py` and
`engine/search_engine.py`.  Pure functions become Lean functions over
`List Char`, `List String`, `ℚ` and `ℤ`; the stateful engine becomes explicit
state passing over an `Engine` structure.  File I/O, `numpy` matrix algebra
and `BeautifulSoup` HTML extraction are modelled at their call boundaries:
serialized posting blobs are represented by the decoded lists they encode,
`math.log` is an explicit function parameter, and the HTML hitlist builder
takes the already-extracted zone token lists.
-/

set_option maxRecDepth 10000

/-! ### Character helpers modelling Python `str` semantics

`pyLower` models `str.lower` on the ASCII letters and the Greek capital
block (the only ranges exercised here); other codepoints are unchanged.
`pyIsSpace` is Python's `\s` on its six ASCII whitespace characters;
`pyIsDigit` is `\d` on ASCII digits; `pyIsWord` models `\w` as
alphanumeric, underscore, or a codepoint at or above 128 (exact on the
letter codepoints appearing in this development). -/

def pyLower (c : Char) : Char :=
  if 'A' ≤ c ∧ c ≤ 'Z' then Char.ofNat (c.toNat + 32)
  else if 0x391 ≤ c.toNat ∧ c.toNat ≤ 0x3A9 ∧ c.toNat ≠ 0x3A2 then Char.ofNat (c.toNat + 32)
  else c

def pyIsSpace (c : Char) : Bool :=
  c = ' ' || c = '\t' || c = '\n' || c = '\r' || c = Char.ofNat 11 || c = Char.ofNat 12

def pyIsDigit (c : Char) : Bool := c.isDigit

def pyIsWord (c : Char) : Bool := c.isAlphanum || c = '_' || decide (c.toNat ≥ 128)

/-- `re.sub(r'(?<!\d)[^\w\s]|[^\w\s](?!\d)', repl, ...)`: every
non-word non-space character is replaced by `repl` unless its immediate
neighbours on both sides are digits (lookarounds inspect the original
string, each match consumes exactly one character). -/
def pySubPunct (repl : List Char) : Option Char → List Char → List Char
  | _, [] => []
  | prev, c :: rest =>
    if pyIsWord c || pyIsSpace c then c :: pySubPunct repl (some c) rest
    else if (prev.map pyIsDigit).getD false && (rest.head?.map pyIsDigit).getD false then
      c :: pySubPunct repl (some c) rest
    else repl ++ pySubPunct repl (some c) rest

/-- `re.sub(r"\s+", " ", text)`: each whitespace run becomes one space. -/
def collapseSpaces (l : List Char) : List Char :=
  l.foldr (fun c acc =>
    if pyIsSpace c then
      match acc with
      | ' ' :: _ => acc
      | _ => ' ' :: acc
    else c :: acc) []

/-- Python `str.strip()` (after `collapseSpaces` only plain spaces remain). -/
def stripSpaces (l : List Char) : List Char :=
  ((l.dropWhile (fun c => pyIsSpace c)).reverse.dropWhile (fun c => pyIsSpace c)).reverse

/-- Python `str.split(' ')`: splits on every single space, keeping empty
pieces; the empty string yields `[""]`. -/
def splitOnSpace (l : List Char) : List String :=
  (l.foldr (fun c acc =>
    match acc with
    | [] => [[c]]
    | w :: ws => if c = ' ' then [] :: (w :: ws) else (c :: w) :: ws)
    ([[]] : List (List Char))).map String.mk

/-! ### `FileHandler.normalize_and_tokenize` (structured mode) -/

/-- `FileHandler.normalize_and_tokenize`: per codepoint, alphanumeric or
codepoint ≥ 128 extends the current word (lowercased); anything else
flushes a non-empty buffer; the final buffer is emitted. -/
def normalize_and_tokenize (text : String) : List String :=
  let fin := text.data.foldl (fun (acc : List String × List Char) c =>
    if c.isAlphanum || decide (c.toNat ≥ 128) then (acc.1, acc.2 ++ [pyLower c])
    else if acc.2 = [] then (acc.1, []) else (acc.1 ++ [String.mk acc.2], []))
    ([], [])
  if fin.2 = [] then fin.1 else fin.1 ++ [String.mk fin.2]

/-- `FileHandler.normalize_and_tokenize_for_html`: newlines to spaces,
punctuation to space unless both neighbours are digits, collapse
whitespace, strip, lowercase, split on single spaces. -/
def normalize_and_tokenize_for_html (text : String) : List String :=
  let cs := text.data.map (fun c => if c = '\n' then ' ' else c)
  let cs := pySubPunct [' '] none cs
  let cs := stripSpaces (collapseSpaces cs)
  splitOnSpace (cs.map pyLower)

/-- `SearchEngine.process_query`: like the HTML normalizer, but in `rps`
mode punctuation is deleted instead of replaced by a space, and an extra
pass removes commas, parentheses, brackets and braces. -/
def process_query (q : String) (rps : Bool) : List String :=
  let cs := q.data.map (fun c => if c = '\n' then ' ' else c)
  let cs := pySubPunct (if rps then [] else [' ']) none cs
  let cs := stripSpaces (collapseSpaces cs)
  let cs := cs.filter (fun c =>
    !(c = ',' || c = '(' || c = ')' || c = '[' || c = ']' || c = '{' || c = '}'))
  splitOnSpace (cs.map pyLower)

/-- C4 counterexample: on `"Α B-C d3.14e"` the unstructured tokenizer does
not return `["α", "b-c", "d3.14e"]` — the hyphen in `B-C` is not
surrounded by digits on both sides, so it is replaced by a space. -/
theorem c4_counterexample :
    normalize_and_tokenize_for_html "Α B-C d3.14e" ≠ ["α", "b-c", "d3.14e"] := by
  decide

/-- C4 (amended): on `"Α B-C d3.14e"` the structured tokenizer returns
`["α", "b", "c", "d3", "14e"]` and the unstructured tokenizer returns
`["α", "b", "c", "d3.14e"]`; a punctuation character survives the
unstructured pass only when it has digits on both sides, so `d3.14e` is
preserved but `b-c` is split. -/
theorem c4_tokenizer_outputs :
    normalize_and_tokenize "Α B-C d3.14e" = ["α", "b", "c", "d3", "14e"]
    ∧ normalize_and_tokenize_for_html "Α B-C d3.14e" = ["α", "b", "c", "d3.14e"] := by
  exact ⟨by decide, by decide⟩

/-! ### Hitlists and the LSM barrel store (`MMapBarrel/LSMBarrel.py`)

A hitlist is the `[doc_id, positions, counters]` triple the builders emit.
The barrel's base posting file plus offsets table is modelled as a partial
map `word_index → decoded posting list`; the delta file plus its offsets
table as a map `word_index → list of decoded append records` (msgpack
serialization is abstracted by the decoded lists it round-trips). -/

structure Hitlist where
  docId : String
  positions : List Nat
  counters : List Nat
deriving DecidableEq, Repr

structure LSMBarrel (α : Type) where
  base : Nat → Option (List α)
  delta : Nat → List (List α)

/-- `LSMBarrel.get_posting`: base record (if any) followed by every delta
record for that word index, in append order. -/
def get_posting {α : Type} (b : LSMBarrel α) (idx : Nat) : List α :=
  ((b.base idx).getD []) ++ (b.delta idx).flatten

/-- `LSMBarrel.append_delta`: one more append record for `idx`. -/
def append_delta {α : Type} (b : LSMBarrel α) (idx : Nat) (postings : List α) :
    LSMBarrel α :=
  { b with delta := fun i => if i = idx then b.delta i ++ [postings] else b.delta i }

/-- `LSMBarrel.compact`: for every index present in base or delta offsets
the merged posting list becomes the new base record; the delta file and
its offsets table are emptied. -/
def compact {α : Type} (b : LSMBarrel α) : LSMBarrel α :=
  { base := fun i =>
      if (b.base i).isSome || !(b.delta i).isEmpty then some (get_posting b i) else none,
    delta := fun _ => [] }

theorem get_posting_compact {α : Type} (b : LSMBarrel α) (w : Nat) :
    get_posting (compact b) w = get_posting b w := by
  unfold compact get_posting
  by_cases h : ((b.base w).isSome || !(b.delta w).isEmpty) = true
  · simp [h]
  · have h' := h
    simp only [Bool.or_eq_true, Bool.not_eq_true', not_or, Bool.not_eq_false] at h'
    rcases h' with ⟨h1, h2⟩
    rw [List.isEmpty_iff] at h2
    simp [h, Option.not_isSome_iff_eq_none.mp h1, h2]

/-- The S5 barrel: base entry `{5: [h1, h2]}`, delta records `[h3]` and
`[h4, h5]` for index 5, with the hitlists numbered 1..5. -/
def c5Barrel : LSMBarrel Nat :=
  { base := fun i => if i = 5 then some [1, 2] else none,
    delta := fun i => if i = 5 then [[3], [4, 5]] else [] }

/-- C5: compaction preserves `get_posting` for every word index as a
multiset (in fact as a sequence) and empties the delta store; on the S5
instance `get(5)` is `[h1,h2,h3,h4,h5]` both before and after. -/
theorem c5_compaction_equivalence :
    (∀ (α : Type) (b : LSMBarrel α) (w : Nat),
        (↑(get_posting (compact b) w) : Multiset α) = ↑(get_posting b w)
        ∧ (compact b).delta w = [])
    ∧ get_posting c5Barrel 5 = [1, 2, 3, 4, 5]
    ∧ get_posting (compact c5Barrel) 5 = [1, 2, 3, 4, 5]
    ∧ (compact c5Barrel).delta 5 = [] := by
  refine ⟨fun α b w => ⟨by rw [get_posting_compact], rfl⟩, by decide, by decide, rfl⟩

/-! ### Generic list helpers shared by the embedding -/

/-- First-occurrence deduplication; models iteration order over a Python
`dict` keyed by first insertion (and is the canonical order chosen for
iteration over a Python `set`, whose order is unspecified). -/
def firstDedup {α : Type} [DecidableEq α] : List α → List α
  | [] => []
  | a :: as => a :: (firstDedup as).filter (fun b => b ≠ a)

theorem mem_firstDedup {α : Type} [DecidableEq α] (a : α) (l : List α) :
    a ∈ firstDedup l ↔ a ∈ l := by
  induction l with
  | nil => simp [firstDedup]
  | cons b bs ih =>
    simp only [firstDedup, List.mem_cons, List.mem_filter, ih, decide_eq_true_eq]
    by_cases hab : a = b
    · simp [hab]
    · simp [hab]

/-- Python `in` on strings (contiguous substring, empty needle matches). -/
def startsL : List Char → List Char → Bool
  | [], _ => true
  | _ :: _, [] => false
  | a :: as, b :: bs => a = b && startsL as bs

def containsSub (needle : List Char) : List Char → Bool
  | [] => needle.isEmpty
  | c :: rest => startsL needle (c :: rest) || containsSub needle rest

/-! ### The paper hitlist builder (`FileHandler.process_json_file`)

The builder walks title, abstract items, author fields, body items, bib
titles, ref texts and back matter in that order, tokenizing each text with
the structured tokenizer; JSON parsing and the walk over the concrete dict
shape are modelled by a `PaperDoc` record holding the extracted texts in
walk order.  The walk is a fold over the stream of (token, zone-group)
pairs. -/

structure PaperDoc where
  title : String
  abstractTexts : List String
  authors : List (String ⊕ List String)
  bodyTexts : List String
  bibTitles : List String
  refTexts : List String
  backTexts : List String

/-- A plain-string author contributes itself; a dict author contributes its
string-valued fields in insertion order. -/
def authorTexts : String ⊕ List String → List String
  | Sum.inl s => [s]
  | Sum.inr vals => vals

/-- The ordered stream of emitted (token, group) pairs: group 1 is
title+abstract+authors, group 2 body, group 3 bib+ref+back matter. -/
def tokenStream (d : PaperDoc) : List (String × Nat) :=
  (normalize_and_tokenize d.title).map (fun t => (t, 1))
  ++ d.abstractTexts.flatMap (fun s => (normalize_and_tokenize s).map (fun t => (t, 1)))
  ++ d.authors.flatMap (fun a =>
      (authorTexts a).flatMap (fun s => (normalize_and_tokenize s).map (fun t => (t, 1))))
  ++ d.bodyTexts.flatMap (fun s => (normalize_and_tokenize s).map (fun t => (t, 2)))
  ++ d.bibTitles.flatMap (fun s => (normalize_and_tokenize s).map (fun t => (t, 3)))
  ++ d.refTexts.flatMap (fun s => (normalize_and_tokenize s).map (fun t => (t, 3)))
  ++ d.backTexts.flatMap (fun s => (normalize_and_tokenize s).map (fun t => (t, 3)))

structure WalkState where
  pos : Nat
  posMap : String → List Nat
  g1 : String → Nat
  g2 : String → Nat
  g3 : String → Nat

def bumpCount (f : String → Nat) (t : String) : String → Nat :=
  fun w => if w = t then f t + 1 else f w

/-- One emitted token: record the position iff fewer than 15 are stored,
bump the group counter, advance the running position. -/
def walkStep (s : WalkState) (tg : String × Nat) : WalkState :=
  { pos := s.pos + 1,
    posMap := fun w =>
      if w = tg.1 then
        (if (s.posMap tg.1).length < 15 then s.posMap tg.1 ++ [s.pos] else s.posMap tg.1)
      else s.posMap w,
    g1 := if tg.2 = 1 then bumpCount s.g1 tg.1 else s.g1,
    g2 := if tg.2 = 2 then bumpCount s.g2 tg.1 else s.g2,
    g3 := if tg.2 = 3 then bumpCount s.g3 tg.1 else s.g3 }

def initWalk : WalkState :=
  { pos := 0, posMap := fun _ => [], g1 := fun _ => 0, g2 := fun _ => 0, g3 := fun _ => 0 }

/-- `FileHandler.process_json_file` after the walk: one hitlist per word
with nonzero total, counters `[g1, g2, g3, total, doc_length]`. -/
def process_json_file (docid : String) (d : PaperDoc) : List (String × Hitlist) :=
  let st := (tokenStream d).foldl walkStep initWalk
  (firstDedup ((tokenStream d).map (fun p => p.1))).filterMap (fun w =>
    let t1 := st.g1 w
    let t2 := st.g2 w
    let t3 := st.g3 w
    let total := t1 + t2 + t3
    if total = 0 then none
    else some (w, { docId := docid, positions := st.posMap w,
                    counters := [t1, t2, t3, total, st.pos] }))

theorem walk_pos_eq (l : List (String × Nat)) (s : WalkState) :
    (l.foldl walkStep s).pos = s.pos + l.length := by
  induction l generalizing s with
  | nil => simp
  | cons a as ih => simp [List.foldl_cons, ih, walkStep, Nat.add_assoc, Nat.add_comm 1]

/-! ### The HTML hitlist builder core (`FileHandler.process_html_file`)

`BeautifulSoup` extraction is outside the model: the core takes the
already-tokenized full visible text, title, meta-description and heading
token lists plus the parsed domain and URL path, exactly the values the
Python code derives before building hitlists.  The anchors counter is the
empty counter in the source, so the `href` slot is always 0. -/

def buildPositions (tokens : List String) : String → List Nat :=
  (tokens.foldl (fun (acc : (String → List Nat) × Nat) tok =>
    (fun w =>
      if w = tok then
        (if (acc.1 tok).length < 15 then acc.1 tok ++ [acc.2] else acc.1 tok)
      else acc.1 w,
     acc.2 + 1)) (fun _ => [], 0)).1

def process_html_hitlists (tokens titleToks metaToks headToks : List String)
    (domain urlPath : String) (docid : String) : List (String × Hitlist) :=
  let docLength := tokens.length
  let posMap := buildPositions tokens
  (firstDedup tokens).map (fun w =>
    (w, { docId := docid, positions := posMap w,
          counters := [titleToks.count w, metaToks.count w, headToks.count w,
                       tokens.count w, 0,
                       if containsSub w.data domain.data then 1 else 0,
                       if containsSub w.data urlPath.data then 1 else 0,
                       docLength] }))

/-- C8 counterexample: an HTML hitlist for a word occurring once in the
visible body and in no zone has `total = 1` but every zone counter
(title, meta, heading, href, in_domain, in_url) equal to 0, so `total`
is not the sum of the zone counters. -/
theorem c8_counterexample :
    ¬ (∀ p ∈ process_html_hitlists ["foo"] [] [] [] "" "" "H0",
        p.2.counters.getD 3 0 =
          p.2.counters.getD 0 0 + p.2.counters.getD 1 0 + p.2.counters.getD 2 0
          + p.2.counters.getD 4 0 + p.2.counters.getD 5 0 + p.2.counters.getD 6 0) := by
  decide

/-- C8 (amended): for every paper hitlist, `counters[3]` is the sum of the
three zone counters and `counters[4]` is the final running position
counter (the length of the emitted token stream); for every HTML hitlist,
`counters[7]` is the number of visible-text tokens and `counters[3]` is
the word's occurrence count in the full visible text — not the sum of the
title/meta/heading/href zone counters. -/
theorem c8_counter_invariants :
    (∀ (docid : String) (d : PaperDoc) (w : String) (h : Hitlist),
        (w, h) ∈ process_json_file docid d →
        h.counters.getD 3 0 =
          h.counters.getD 0 0 + h.counters.getD 1 0 + h.counters.getD 2 0
        ∧ h.counters.getD 4 0 = (tokenStream d).length)
    ∧ (∀ (tokens titleToks metaToks headToks : List String)
         (domain urlPath docid : String) (w : String) (h : Hitlist),
        (w, h) ∈ process_html_hitlists tokens titleToks metaToks headToks domain urlPath docid →
        h.counters.getD 3 0 = tokens.count w ∧ h.counters.getD 7 0 = tokens.length) := by
  constructor
  · intro docid d w h hmem
    unfold process_json_file at hmem
    rcases List.mem_filterMap.mp hmem with ⟨w', _, hw'⟩
    dsimp only at hw'
    split at hw'
    · exact Option.noConfusion hw'
    · cases hw'
      refine ⟨rfl, ?_⟩
      simp [walk_pos_eq, initWalk]
  · intro tokens titleToks metaToks headToks domain urlPath docid w h hmem
    unfold process_html_hitlists at hmem
    rcases List.mem_map.mp hmem with ⟨w', _, hw'⟩
    cases hw'
    exact ⟨rfl, rfl⟩

/-- Concrete paper for the C8 witness: title `"alpha"`, everything else
empty. -/
def c8Paper : PaperDoc :=
  { title := "alpha", abstractTexts := [], authors := [], bodyTexts := [],
    bibTitles := [], refTexts := [], backTexts := [] }

/-- The paper hitlist `process_json_file "P1" c8Paper` emits for `alpha`. -/
def c8PaperHit : Hitlist :=
  { docId := "P1", positions := [0], counters := [1, 0, 0, 1, 1] }

/-- The HTML hitlist `process_html_hitlists` emits for `foo` below. -/
def c8HtmlHit : Hitlist :=
  { docId := "H0", positions := [0], counters := [0, 0, 0, 1, 0, 0, 0, 1] }

/-- C8 witness: the amended invariants evaluated on a concrete paper
hitlist and a concrete HTML hitlist. -/
theorem c8_witness :
    (("alpha", c8PaperHit) ∈ process_json_file "P1" c8Paper
      ∧ ("foo", c8HtmlHit) ∈ process_html_hitlists ["foo"] [] [] [] "" "" "H0")
    ∧ (c8PaperHit.counters.getD 3 0 =
        c8PaperHit.counters.getD 0 0 + c8PaperHit.counters.getD 1 0
          + c8PaperHit.counters.getD 2 0
      ∧ c8PaperHit.counters.getD 4 0 = (tokenStream c8Paper).length)
    ∧ (c8HtmlHit.counters.getD 3 0 = (["foo"] : List String).count "foo"
      ∧ c8HtmlHit.counters.getD 7 0 = (["foo"] : List String).length) := by
  refine ⟨⟨by decide, by decide⟩, ?_, ?_⟩
  · exact c8_counter_invariants.1 "P1" c8Paper "alpha" c8PaperHit (by decide)
  · exact c8_counter_invariants.2 ["foo"] [] [] [] "" "" "H0" "foo" c8HtmlHit (by decide)

/-! ### Scoring (`SearchEngine.score_html_files`, `rank_research_papers`)

Counters are cast to `ℚ`; `math.log` is the `mathlog` field of the score
environment (an uninterpreted function of the embedding); Python's `int()`
cast is truncation toward zero; the immutable rank tables, the URL
mappings and `urlparse(...).netloc` are total functions in the environment
encoding each dict's `.get` default. -/

/-- Python `int()` on a rational: truncation toward zero. -/
def pyInt (q : ℚ) : ℤ := Int.tdiv q.num q.den

/-- Python `str.replace(c, "")` for a single-character pattern. -/
def pyReplaceDel (c : Char) (s : String) : String :=
  String.mk (s.data.filter (fun x => x ≠ c))

/-- Python slicing `s[1:]`. -/
def strDrop1 (s : String) : String := String.mk (s.data.drop 1)

/-- Python `s.startswith(c)` for a single-character argument. -/
def strStarts (s : String) (c : Char) : Bool := s.data.head? = some c

/-- Python `str.strip()`. -/
def pyStrip (s : String) : String := String.mk (stripSpaces s.data)

def closeOf (c : Char) : Option Char :=
  if c = '(' then some ')'
  else if c = '[' then some ']'
  else if c = Char.ofNat 123 then some (Char.ofNat 125)
  else if c = '<' then some '>'
  else none

/-- `re.sub(r'\(.*?\)|\[.*?\]|\{.*?\}|<.*?>', ' ', ...)`: non-greedy — each
opening bracket up to the nearest closing bracket of the same kind
becomes one space; an unmatched opener stays.  (`.` matching any
character; bracketed title content contains no newline here.)  Fuel is
the remaining length, consumed at least one character per step. -/
def stripBrackets : Nat → List Char → List Char
  | 0, l => l
  | _, [] => []
  | fuel + 1, c :: rest =>
    match closeOf c with
    | some cl =>
      match rest.findIdx? (fun x => x = cl) with
      | some i => ' ' :: stripBrackets fuel (rest.drop (i + 1))
      | none => c :: stripBrackets fuel rest
    | none => c :: stripBrackets fuel rest

/-- `SearchEngine.normalize_title`: lowercase, drop bracketed content,
non-letters to space, collapse whitespace, strip. -/
def normalize_title (title : String) : String :=
  let t := title.data.map pyLower
  let t := stripBrackets t.length t
  let t := t.map (fun c => if (decide ('a' ≤ c) && decide (c ≤ 'z')) || pyIsSpace c then c else ' ')
  String.mk (stripSpaces (collapseSpaces t))

structure ScoreEnv where
  mathlog : ℚ → ℚ
  doc_id_to_url : String → String
  page_rank : String → ℚ
  domain_rank : String → ℚ
  citation : String → ℚ
  netloc : String → String
  rps_info : String → String × String

/-- `SearchEngine.score_html_files`, step by step as in the source. -/
def score_html_files (env : ScoreEnv) (h : Hitlist) : ℤ :=
  let c := h.counters
  let n_title : ℚ := c.getD 0 0
  let n_meta : ℚ := c.getD 1 0
  let n_heading : ℚ := c.getD 2 0
  let n_total : ℚ := c.getD 3 0
  let in_domain : ℚ := c.getD 5 0
  let in_url : ℚ := c.getD 6 0
  let doc_len : ℚ := if (c.getD 7 0 : ℚ) > 0 then (c.getD 7 0 : ℚ) else 1
  let score : ℚ := min (n_title * 7.5) 15
  let score := score + (if in_domain ≠ 0 then 10 else 0)
  let score := score + (if in_url ≠ 0 then 5 else 0)
  let score := score + min (n_heading * 3) 9
  let score := score + min (n_meta * 2) 6
  let score := score + (match h.positions with
    | [] => 0
    | p :: _ => 15 - min ((p / 7 : ℕ) : ℚ) 15)
  let body_hits : ℚ := max 0 (n_total - (n_title + n_heading + n_meta))
  let density : ℚ := n_total / doc_len
  let freq_score : ℚ := env.mathlog (1 + body_hits) * 7
  let score := score + min freq_score 20
  let score := score * (1 - density)
  let final_score : ℚ := max 1 (min 80 score)
  let doc_url := env.doc_id_to_url (pyReplaceDel 'H' h.docId)
  pyInt (final_score + env.page_rank doc_url + env.domain_rank (env.netloc doc_url))

/-- `SearchEngine.rank_research_papers`, step by step as in the source.
`density` divides by `counters[4]` with no zero guard (Python would raise
on a zero doc length; builder hitlists always carry a positive one — in
`ℚ` division by zero yields zero). -/
def rank_research_papers (env : ScoreEnv) (h : Hitlist) : ℤ :=
  let c := h.counters
  let n_golden : ℚ := c.getD 0 0
  let n_body : ℚ := c.getD 1 0
  let n_other : ℚ := c.getD 2 0
  let n_total : ℚ := c.getD 3 0
  let doc_len : ℚ := c.getD 4 0
  let score : ℚ := min (n_golden * 5) 35
  let score := score + (match h.positions with
    | [] => 0
    | p :: _ => 15 - min ((p / 15 : ℕ) : ℚ) 10)
  let density : ℚ := n_total / doc_len
  let relevant_hits : ℚ := n_body + n_other * 0.1
  let freq_score : ℚ := env.mathlog (1 + relevant_hits) * 10
  let score := score + min freq_score 40
  let score := score * (1 - density)
  let final_score : ℚ := max 1 (min 80 score)
  let title := pyStrip (env.rps_info (pyReplaceDel 'P' h.docId)).1
  pyInt (final_score + env.citation (normalize_title title))

/-- The HTML score exactly as C6 words it: the clamped zone, position and
frequency formula is cast to integer FIRST and the static ranks are added
afterwards (a rational since the ranks are rationals). -/
def html_score_claim (env : ScoreEnv) (h : Hitlist) : ℚ :=
  ((pyInt (max 1 (min 80 ((min ((h.counters.getD 0 0 : ℚ) * 7.5) 15
      + (if (h.counters.getD 5 0 : ℚ) ≠ 0 then 10 else 0)
      + (if (h.counters.getD 6 0 : ℚ) ≠ 0 then 5 else 0)
      + min ((h.counters.getD 2 0 : ℚ) * 3) 9
      + min ((h.counters.getD 1 0 : ℚ) * 2) 6
      + (match h.positions with
          | [] => 0
          | p :: _ => 15 - min ((p / 7 : ℕ) : ℚ) 15)
      + min (env.mathlog (1 + max 0 ((h.counters.getD 3 0 : ℚ)
            - ((h.counters.getD 0 0 : ℚ) + (h.counters.getD 2 0 : ℚ)
              + (h.counters.getD 1 0 : ℚ)))) * 7) 20)
      * (1 - (h.counters.getD 3 0 : ℚ) / (h.counters.getD 7 0 : ℚ))))) : ℤ)
    + env.page_rank (env.doc_id_to_url (pyReplaceDel 'H' h.docId))
    + env.domain_rank (env.netloc (env.doc_id_to_url (pyReplaceDel 'H' h.docId))))

/-- The HTML score with the amendment C6 needs: ranks are added to the
clamped score and the SUM is cast to integer, the cast being last. -/
def html_score_spec (env : ScoreEnv) (h : Hitlist) : ℤ :=
  pyInt ((max 1 (min 80 ((min ((h.counters.getD 0 0 : ℚ) * 7.5) 15
      + (if (h.counters.getD 5 0 : ℚ) ≠ 0 then 10 else 0)
      + (if (h.counters.getD 6 0 : ℚ) ≠ 0 then 5 else 0)
      + min ((h.counters.getD 2 0 : ℚ) * 3) 9
      + min ((h.counters.getD 1 0 : ℚ) * 2) 6
      + (match h.positions with
          | [] => 0
          | p :: _ => 15 - min ((p / 7 : ℕ) : ℚ) 15)
      + min (env.mathlog (1 + max 0 ((h.counters.getD 3 0 : ℚ)
            - ((h.counters.getD 0 0 : ℚ) + (h.counters.getD 2 0 : ℚ)
              + (h.counters.getD 1 0 : ℚ)))) * 7) 20)
      * (1 - (h.counters.getD 3 0 : ℚ) / (h.counters.getD 7 0 : ℚ)))))
    + env.page_rank (env.doc_id_to_url (pyReplaceDel 'H' h.docId))
    + env.domain_rank (env.netloc (env.doc_id_to_url (pyReplaceDel 'H' h.docId))))

/-- C6 (amended): for every hitlist with positive `doc_length`, the code's
HTML score equals the claimed closed formula with the cast applied after
the static ranks are added. -/
theorem c6_html_score_formula (env : ScoreEnv) (h : Hitlist)
    (hpos : 0 < h.counters.getD 7 0) :
    score_html_files env h = html_score_spec env h := by
  have h7 : ((h.counters.getD 7 0 : ℕ) : ℚ) > 0 := by exact_mod_cast hpos
  unfold score_html_files html_score_spec
  dsimp only
  rw [if_pos h7]

/-- Score environment for the C6 counterexample: zero log, a page rank of
one half for the document's URL. -/
def c6Env : ScoreEnv :=
  { mathlog := fun _ => 0, doc_id_to_url := fun _ => "u",
    page_rank := fun u => if u = "u" then 1 / 2 else 0,
    domain_rank := fun _ => 0, citation := fun _ => 0,
    netloc := fun _ => "", rps_info := fun _ => ("", "") }

/-- A hitlist with density 1: the clamped score is exactly 1 whatever the
log function, exposing the cast order. -/
def c6Hit : Hitlist :=
  { docId := "H3", positions := [], counters := [0, 0, 0, 5, 0, 0, 0, 5] }

unseal Rat.mul Rat.add Rat.sub Rat.inv Rat.ofScientific in
/-- C6 counterexample: with the clamped score 1 and a page rank of `1/2`,
the code returns `int(1 + 1/2) = 1` while the claimed order of operations
(cast before adding ranks) yields `1 + 1/2 = 3/2`. -/
theorem c6_counterexample :
    ((score_html_files c6Env c6Hit : ℤ) : ℚ) ≠ html_score_claim c6Env c6Hit := by
  decide

/-- C6 witness: the amended formula at the concrete counterexample data. -/
theorem c6_witness :
    0 < c6Hit.counters.getD 7 0
    ∧ score_html_files c6Env c6Hit = html_score_spec c6Env c6Hit :=
  ⟨by decide, c6_html_score_formula c6Env c6Hit (by decide)⟩

/-! ### Phrase proximity bonus (`SearchEngine.search`, scoring loop)

From each occurrence of the first query token, the inner loop greedily
picks, for each subsequent token, the first listed position `p` with
`0 < p - curr <= 2`; the matched prefix length `L` (starting at 1)
contributes `sum(range(L))`. -/

def chainLen (pm : String → List Nat) : Nat → List String → Nat
  | _, [] => 0
  | curr, t :: ts =>
    match (pm t).find? (fun p => decide (curr < p) && decide (p ≤ curr + 2)) with
    | none => 0
    | some p => 1 + chainLen pm p ts

def phraseBonus (tokens : List String) (pm : String → List Nat) : Nat :=
  match tokens with
  | [] => 0
  | t :: rest => ((pm t).map (fun s => (List.range (1 + chainLen pm s rest)).sum)).sum

theorem two_mul_sum_range (n : Nat) : 2 * (List.range n).sum = n * (n - 1) := by
  induction n with
  | zero => rfl
  | succ m ih =>
    rw [List.range_succ, List.sum_append]
    simp only [List.sum_cons, List.sum_nil, Nat.add_zero, Nat.succ_sub_one]
    cases m with
    | zero => simp
    | succ k =>
      simp only [Nat.succ_sub_one] at ih
      nlinarith [ih]

theorem sum_range_eq (n : Nat) : (List.range n).sum = n * (n - 1) / 2 := by
  have h := two_mul_sum_range n
  omega

/-- The position lists of S2: `quantum` at 5 and 50, `entanglement` at 6. -/
def c7Positions : String → List Nat :=
  fun t => if t = "quantum" then [5, 50] else if t = "entanglement" then [6] else []

/-- C7: the phrase bonus is the sum over all occurrences of the first
token of `L·(L−1)/2`, `L` being the greedily matched prefix length; on
the S2 positions for `"quantum entanglement"` it is exactly 1. -/
theorem c7_phrase_bonus :
    (∀ (t : String) (rest : List String) (pm : String → List Nat),
        phraseBonus (t :: rest) pm =
          ((pm t).map (fun s =>
            (1 + chainLen pm s rest) * ((1 + chainLen pm s rest) - 1) / 2)).sum)
    ∧ phraseBonus ["quantum", "entanglement"] c7Positions = 1 := by
  constructor
  · intro t rest pm
    unfold phraseBonus
    have key : ∀ l : List Nat,
        (l.map (fun s => (List.range (1 + chainLen pm s rest)).sum)).sum =
          (l.map (fun s =>
            (1 + chainLen pm s rest) * ((1 + chainLen pm s rest) - 1) / 2)).sum := by
      intro l
      induction l with
      | nil => rfl
      | cons a as ih => simp [ih, sum_range_eq]
    exact key (pm t)
  · decide

/-! ### Query embedding (`SearchEngine.compute_tf`, `query_to_embedding`)

The word2vec model is a partial map from word to vector (over `ℚ`), the
IDF table a partial map to `ℚ` read through `.get(word, 0)`.  The lists
`vecs` and `weights` accumulated by the Python loop are the two
projections of `queryContrib`. -/

/-- `SearchEngine.compute_tf`: term frequency per distinct token, in
first-occurrence order (Python `Counter` iteration order). -/
def compute_tf (tokens : List String) : List (String × ℚ) :=
  (firstDedup tokens).map (fun w => (w, (tokens.count w : ℚ) / (tokens.length : ℚ)))

/-- The `(tfidf, vector)` pairs accumulated for tokens present in the
embedding vocabulary. -/
def queryContrib (w2v : String → Option (List ℚ)) (idf : String → Option ℚ)
    (tokens : List String) : List (ℚ × List ℚ) :=
  (compute_tf tokens).filterMap (fun wt =>
    match w2v wt.1 with
    | some vec => some (wt.2 * (idf wt.1).getD 0, vec)
    | none => none)

/-- `np.sum(vecs, axis=0)`. -/
def vecSum : List (List ℚ) → List ℚ
  | [] => []
  | [v] => v
  | v :: rest => (vecSum rest).zipWith (fun a b => a + b) v

/-- `SearchEngine.query_to_embedding`: the weighted vector sum divided by
the accumulated weight, or the zero vector of the model dimension when no
token contributed. -/
def query_to_embedding (w2v : String → Option (List ℚ)) (idf : String → Option ℚ)
    (dim : Nat) (tokens : List String) : List ℚ :=
  let contrib := queryContrib w2v idf tokens
  let vecs := contrib.map (fun p => p.2.map (fun x => p.1 * x))
  let weights := contrib.map (fun p => p.1)
  if vecs.isEmpty then List.replicate dim 0
  else (vecSum vecs).map (fun x => x / weights.sum)

/-- Vocabulary for the C9 counterexample: only `foo`, with vector `[1]`. -/
def c9W2v : String → Option (List ℚ) := fun w => if w = "foo" then some [1] else none

/-- An IDF table with no entries: `.get(word, 0)` is always 0. -/
def c9Idf : String → Option ℚ := fun _ => none

/-- An IDF table assigning 1 to every word. -/
def c9IdfPos : String → Option ℚ := fun _ => some 1

unseal Rat.mul Rat.add Rat.sub Rat.inv Rat.ofScientific in
/-- C9 counterexample: for the query `["foo"]` with `foo` in the
vocabulary but absent from the IDF table, `vecs` is nonempty yet the
accumulated weight is 0, so `sum / weight` IS executed with a zero
divisor, contradicting the claim. -/
theorem c9_counterexample :
    queryContrib c9W2v c9Idf ["foo"] ≠ []
    ∧ ((queryContrib c9W2v c9Idf ["foo"]).map (fun p => p.1)).sum = 0 := by
  exact ⟨by decide, by decide⟩

/-- C9 (amended): with no query token in the vocabulary the result is the
zero vector of the model dimension; and the accumulated weight is
positive — so the division is sound — provided every IDF value is
nonnegative and some token both sits in the vocabulary and has strictly
positive IDF.  When every vocabulary token has IDF 0 the divisor is 0
(see the counterexample). -/
theorem c9_embedding_weight :
    (∀ (w2v : String → Option (List ℚ)) (idf : String → Option ℚ) (dim : Nat)
        (tokens : List String),
        (∀ w ∈ tokens, w2v w = none) →
        query_to_embedding w2v idf dim tokens = List.replicate dim 0)
    ∧ (∀ (w2v : String → Option (List ℚ)) (idf : String → Option ℚ)
        (tokens : List String),
        (∀ w, 0 ≤ (idf w).getD 0) →
        (∃ w ∈ tokens, (w2v w).isSome ∧ 0 < (idf w).getD 0) →
        0 < ((queryContrib w2v idf tokens).map (fun p => p.1)).sum) := by
  constructor
  · intro w2v idf dim tokens hnone
    have hcontrib : queryContrib w2v idf tokens = [] := by
      unfold queryContrib
      rw [List.filterMap_eq_nil_iff]
      intro wt hwt
      rcases List.mem_map.mp hwt with ⟨w, hw, hwteq⟩
      have hwmem : w ∈ tokens := (mem_firstDedup w tokens).mp hw
      subst hwteq
      simp [hnone w hwmem]
    simp [query_to_embedding, hcontrib]
  · intro w2v idf tokens hidf hex
    rcases hex with ⟨w0, hw0mem, hsome, hpos⟩
    rcases Option.isSome_iff_exists.mp hsome with ⟨v0, hv0⟩
    set tf0 : ℚ := ((tokens.count w0 : ℚ) / (tokens.length : ℚ)) with htf0
    have htfpos : 0 < tf0 := by
      apply div_pos
      · exact_mod_cast List.count_pos_iff.mpr hw0mem
      · exact_mod_cast List.length_pos.mpr (List.ne_nil_of_mem hw0mem)
    have hwmem : (w0, tf0) ∈ compute_tf tokens := by
      unfold compute_tf
      exact List.mem_map.mpr ⟨w0, (mem_firstDedup w0 tokens).mpr hw0mem, rfl⟩
    have hcmem : (tf0 * (idf w0).getD 0, v0) ∈ queryContrib w2v idf tokens := by
      unfold queryContrib
      exact List.mem_filterMap.mpr ⟨(w0, tf0), hwmem, by simp [hv0]⟩
    have hweights : tf0 * (idf w0).getD 0 ∈
        (queryContrib w2v idf tokens).map (fun p => p.1) :=
      List.mem_map.mpr ⟨_, hcmem, rfl⟩
    have hw0pos : 0 < tf0 * (idf w0).getD 0 := mul_pos htfpos hpos
    have hall : ∀ x ∈ (queryContrib w2v idf tokens).map (fun p => p.1), 0 ≤ x := by
      intro x hx
      rcases List.mem_map.mp hx with ⟨p, hp, hpeq⟩
      unfold queryContrib at hp
      rcases List.mem_filterMap.mp hp with ⟨wt, hwt, hwteq⟩
      rcases hwtval : w2v wt.1 with _ | vec
      · simp [hwtval] at hwteq
      · simp only [hwtval] at hwteq
        have hp1 : p.1 = wt.2 * (idf wt.1).getD 0 := by
          cases hwteq
          rfl
        subst hpeq
        rw [hp1]
        have htfnn : 0 ≤ wt.2 := by
          unfold compute_tf at hwt
          rcases List.mem_map.mp hwt with ⟨w, _, hweq⟩
          subst hweq
          positivity
        exact mul_nonneg htfnn (hidf wt.1)
    exact lt_of_lt_of_le hw0pos (List.single_le_sum hall _ hweights)

unseal Rat.mul Rat.add Rat.sub Rat.inv Rat.ofScientific in
/-- C9 witness: both amended parts at concrete inputs — the query
`["bar"]` misses the vocabulary and yields the zero vector; the query
`["foo"]` with the all-ones IDF table yields a positive weight. -/
theorem c9_weight_witness :
    ((∀ w ∈ ["bar"], c9W2v w = none)
      ∧ query_to_embedding c9W2v c9Idf 2 ["bar"] = List.replicate 2 0)
    ∧ ((∀ w, (0 : ℚ) ≤ (c9IdfPos w).getD 0)
        ∧ (∃ w ∈ ["foo"], (c9W2v w).isSome ∧ (0 : ℚ) < (c9IdfPos w).getD 0)
        ∧ 0 < ((queryContrib c9W2v c9IdfPos ["foo"]).map (fun p => p.1)).sum) := by
  have h0 : ∀ w ∈ ["bar"], c9W2v w = none := by decide
  have h1 : ∀ w, (0 : ℚ) ≤ (c9IdfPos w).getD 0 := fun w => by simp [c9IdfPos]
  have h2 : ∃ w ∈ ["foo"], (c9W2v w).isSome ∧ (0 : ℚ) < (c9IdfPos w).getD 0 :=
    ⟨"foo", by simp, by simp [c9W2v], by simp [c9IdfPos]⟩
  exact ⟨⟨h0, c9_embedding_weight.1 c9W2v c9Idf 2 ["bar"] h0⟩,
    h1, h2, c9_embedding_weight.2 c9W2v c9IdfPos ["foo"] h1 h2⟩

/-! ### Search results, stable sorts and the search pipeline
(`SearchEngine.search`)

`get_semantic_scores` multiplies the stacked embedding matrix by the
normalized query vector (numpy); the search pipeline only consumes its
output, so searches take that output — an association list
`doc_id → similarity` in matrix row order — as the `semScores` argument.
Python's `sorted(..., key=..., reverse=True)` and `list.sort(key=len)`
are stable; they are modelled by stable insertion sorts. -/

structure SearchResult where
  doc_id : String
  final_score : ℚ
  keyword_score : ℚ
  semantic_score : ℚ
  avg_word_score : ℚ
  phrase_bonus : ℚ
  url : String
  positions : List Nat
deriving DecidableEq, Repr

/-- Stable insert for descending sort by `final_score`. -/
def insertDesc (r : SearchResult) : List SearchResult → List SearchResult
  | [] => [r]
  | x :: xs => if x.final_score ≤ r.final_score then r :: x :: xs else x :: insertDesc r xs

/-- `sorted(results, key=lambda x: x["final_score"], reverse=True)`. -/
def sortByFinalDesc (l : List SearchResult) : List SearchResult :=
  l.foldr insertDesc []

theorem mem_insertDesc (a r : SearchResult) (l : List SearchResult) :
    a ∈ insertDesc r l ↔ a = r ∨ a ∈ l := by
  induction l with
  | nil => simp [insertDesc]
  | cons x xs ih =>
    unfold insertDesc
    by_cases h : x.final_score ≤ r.final_score
    · rw [if_pos h]
      simp only [List.mem_cons]
    · rw [if_neg h]
      simp only [List.mem_cons, ih]
      tauto

theorem mem_sortByFinalDesc (a : SearchResult) (l : List SearchResult) :
    a ∈ sortByFinalDesc l ↔ a ∈ l := by
  induction l with
  | nil => simp [sortByFinalDesc]
  | cons x xs ih =>
    unfold sortByFinalDesc at *
    simp [List.foldr_cons, mem_insertDesc, ih]

/-- Stable insert for `rps_hitlists.sort(key=lambda x: len(x[1]))`. -/
def insertLenAsc (p : String × List Hitlist) :
    List (String × List Hitlist) → List (String × List Hitlist)
  | [] => [p]
  | x :: xs => if p.2.length ≤ x.2.length then p :: x :: xs else x :: insertLenAsc p xs

def sortByLenAsc (l : List (String × List Hitlist)) : List (String × List Hitlist) :=
  l.foldr insertLenAsc []

/-- `doc_id.startswith(pfx)` restricted set comprehension
`{hit[0] for hit in hitlist if hit[0].startswith(pfx)}` in first-seen
order. -/
def docsWith (pfx : Char) (hl : List Hitlist) : List String :=
  firstDedup ((hl.filter (fun h => strStarts h.docId pfx)).map (fun h => h.docId))

/-- The per-class intersection: the first (shortest) posting list's doc
set intersected with every other. -/
def commonDocs (pfx : Char) (hl : List (String × List Hitlist)) : List String :=
  match sortByLenAsc hl with
  | [] => []
  | h0 :: rest =>
    rest.foldl (fun acc p => acc.filter (fun d => (docsWith pfx p.2).contains d))
      (docsWith pfx h0.2)

/-- `intersected = defaultdict(list)` filled in token order then hit
order, keyed by doc id in first-insertion order. -/
def addAssoc (m : List (String × List (String × Hitlist))) (k : String)
    (v : String × Hitlist) : List (String × List (String × Hitlist)) :=
  if m.any (fun p => p.1 == k) then
    m.map (fun p => if p.1 == k then (p.1, p.2 ++ [v]) else p)
  else m ++ [(k, [v])]

def buildIntersected (thl : List (String × List Hitlist)) (common : List String) :
    List (String × List (String × Hitlist)) :=
  thl.foldl (fun acc th =>
    th.2.foldl (fun acc2 h =>
      if common.contains h.docId then addAssoc acc2 h.docId (th.1, h) else acc2) acc) []

/-- The result row built for one semantic-only document. -/
def mkSemanticResult (env : ScoreEnv) (w : ℚ) (ds : String × ℚ) : SearchResult :=
  { doc_id := ds.1, final_score := w * ds.2, keyword_score := 0,
    semantic_score := ds.2, avg_word_score := 0, phrase_bonus := 0,
    url := if strStarts ds.1 'P' then (env.rps_info (strDrop1 ds.1)).2
           else env.doc_id_to_url (strDrop1 ds.1),
    positions := [] }

/-- The semantic-only result list: documents with similarity strictly
above zero, in score-map order. -/
def semanticOnly (env : ScoreEnv) (semScores : List (String × ℚ)) (w : ℚ) :
    List SearchResult :=
  (semScores.filter (fun p => !(p.2 ≤ 0 : Bool))).map (mkSemanticResult env w)

/-- The ranked result row for one intersected document. -/
def mkRankedResult (env : ScoreEnv) (sems : List (String × ℚ)) (w : ℚ)
    (doc : String) (tokens : List String) (tokenHits : List (String × Hitlist)) :
    SearchResult :=
  let wordScores := tokenHits.map (fun th =>
    if strStarts doc 'P' then rank_research_papers env th.2 else score_html_files env th.2)
  let avg : ℚ := (wordScores.sum : ℤ) / (wordScores.length : ℚ)
  let pm : String → List Nat := fun tok =>
    (tokenHits.filter (fun th => th.1 == tok)).flatMap (fun th => th.2.positions)
  let pb : ℚ := (phraseBonus tokens pm : ℕ)
  let keyword := avg + pb
  let sem : ℚ := ((sems.find? (fun p => p.1 == doc)).map (fun p => p.2)).getD 0
  { doc_id := doc, final_score := keyword + w * sem, keyword_score := keyword,
    semantic_score := sem, avg_word_score := avg, phrase_bonus := pb,
    url := if strStarts doc 'P' then (env.rps_info (strDrop1 doc)).2
           else env.doc_id_to_url (strDrop1 doc),
    positions := tokenHits.flatMap (fun th => th.2.positions) }

/-- Everything `SearchEngine.search` does after the word lookups.  In the
empty-intersection branch with nonempty semantic scores the source builds
a semantic-only `results` list and then falls through WITHOUT returning
it (the `return` statement is missing), so the main scoring path runs on
an empty intersection and produces `[]`. -/
def searchCore (env : ScoreEnv) (semAvail : Bool) (tokensRps tokensHtml : List String)
    (tokenHitlists : List (String × List Hitlist)) (semScores : List (String × ℚ))
    (useSemantic : Bool) (w : ℚ) : List SearchResult :=
  match tokenHitlists with
  | [] =>
    if useSemantic && semAvail then sortByFinalDesc (semanticOnly env semScores w)
    else []
  | _ :: _ =>
    let rpsHl := tokenHitlists.filter (fun p => tokensRps.contains p.1)
    let htmlHl := tokenHitlists.filter (fun p => tokensHtml.contains p.1)
    let common := commonDocs 'P' rpsHl ++ commonDocs 'H' htmlHl
    let semsUsed := if useSemantic && semAvail then semScores else []
    if common.isEmpty && semsUsed.isEmpty then []
    else
      let ranked := (buildIntersected tokenHitlists common).filterMap (fun di =>
        let tokens := if strStarts di.1 'P' then tokensRps else tokensHtml
        match tokens with
        | [] => none
        | _ :: _ => some (mkRankedResult env semsUsed w di.1 tokens di.2))
      sortByFinalDesc ranked

/-! ### Engine state: cache, overlay, ingest and background merge
(`SearchEngine.word_lookup`, `index_new_rps`, `merge_in_bg`)

The `OrderedDict` word cache is an association list in LRU order (front =
oldest); `temporary_associations` an association list; the per-barrel
pending counters and pending word sets association lists; the barrels a
map `barrel_id → LSMBarrel`.  Cache persistence (`save_word_cache`) and
the raw-file write are I/O and outside the model. -/

def wordCacheSize : Nat := 500

def assocFind {κ β : Type} [BEq κ] (m : List (κ × β)) (k : κ) : Option β :=
  (m.find? (fun p => p.1 == k)).map (fun p => p.2)

structure Engine where
  last_json_id : Nat
  total_documents : Nat
  word_cache : List (String × List Hitlist)
  temp_assoc : List (String × List Hitlist)
  pending_count : List (Nat × Nat)
  pending_words : List (Nat × List String)
  barrels : Nat → LSMBarrel Hitlist
  barrels_index : String → Option (Nat × Nat)
  embeddings_rows : Nat
  rps_info_map : List (String × (String × String))

/-- `OrderedDict.move_to_end`. -/
def moveToEnd (m : List (String × List Hitlist)) (k : String) :
    List (String × List Hitlist) :=
  m.filter (fun p => !(p.1 == k)) ++ m.filter (fun p => p.1 == k)

/-- `SearchEngine.word_lookup`: on a cache hit, move to the MRU end and
return the cached list plus the overlay entry; on a miss, fetch from the
barrel, cache the fetched list (evicting the LRU entry past capacity) and
return it plus the overlay entry. -/
def word_lookup (e : Engine) (word : String) (indices : Nat × Nat) :
    List Hitlist × Engine :=
  let extra := (assocFind e.temp_assoc word).getD []
  match assocFind e.word_cache word with
  | some pl => (pl ++ extra, { e with word_cache := moveToEnd e.word_cache word })
  | none =>
    let pl := get_posting (e.barrels indices.1) indices.2
    let cache1 := e.word_cache ++ [(word, pl)]
    let cache2 := if wordCacheSize < cache1.length then cache1.drop 1 else cache1
    (pl ++ extra, { e with word_cache := cache2 })

/-- The search loop `for token in set(...): word_lookup(token,
barrels_index[token])`, threading the cache state. -/
def lookupTokens (e : Engine) : List String → List (String × List Hitlist) × Engine
  | [] => ([], e)
  | t :: ts =>
    let r := word_lookup e t ((e.barrels_index t).getD (0, 0))
    let rest := lookupTokens r.2 ts
    ((t, r.1) :: rest.1, rest.2)

/-- `SearchEngine.search`: tokenize the query in both modes, keep tokens
present in the barrel index, look each up once, then score; returns the
results and the engine (whose word cache the lookups mutated).  The
static tables come from `base`; `rps_info` is read live from the engine
state, as ingest updates it. -/
def searchEngine (initialized semAvail : Bool) (base : ScoreEnv) (e : Engine)
    (semScores : List (String × ℚ)) (query : String) (useSemantic : Bool) (w : ℚ) :
    List SearchResult × Engine :=
  if initialized then
    let env := { base with
      rps_info := fun k => (assocFind e.rps_info_map k).getD ("", "") }
    let tokensRps := (process_query query true).filter
      (fun t => (e.barrels_index t).isSome)
    let tokensHtml := (process_query query false).filter
      (fun t => (e.barrels_index t).isSome)
    let lk := lookupTokens e (firstDedup (tokensRps ++ tokensHtml))
    (searchCore env semAvail tokensRps tokensHtml lk.1 semScores useSemantic w, lk.2)
  else ([], e)

/-- Insert a word into a barrel's pending set (`set.add`). -/
def addPendingWord (m : List (Nat × List String)) (b : Nat) (w : String) :
    List (Nat × List String) :=
  if m.any (fun p => p.1 == b) then
    m.map (fun p =>
      if p.1 == b then (p.1, if p.2.contains w then p.2 else p.2 ++ [w]) else p)
  else m ++ [(b, [w])]

/-- `pending_additions_per_barrel[b] += 1` on a `defaultdict(int)`. -/
def bumpPending (m : List (Nat × Nat)) (b : Nat) : List (Nat × Nat) :=
  if m.any (fun p => p.1 == b) then
    m.map (fun p => if p.1 == b then (p.1, p.2 + 1) else p)
  else m ++ [(b, 1)]

/-- `temporary_associations.setdefault(word, []).append(hitlist)`. -/
def addTempAssoc (m : List (String × List Hitlist)) (w : String) (h : Hitlist) :
    List (String × List Hitlist) :=
  if m.any (fun p => p.1 == w) then
    m.map (fun p => if p.1 == w then (p.1, p.2 ++ [h]) else p)
  else m ++ [(w, [h])]

/-- `SearchEngine.index_new_rps`.  The raw bytes are modelled by their
parse outcome: `none` when `orjson.loads` raises (malformed document) —
which in the source happens AFTER `last_json_id` and `total_documents`
were already incremented, so the error escapes (only `KeyError` is
caught) with the two counters mutated and nothing else changed; `some
doc` for a parsed document, whose title extraction yields `doc.title`
(the caught `KeyError` case folds into an empty title). -/
def index_new_rps (e : Engine) (content : Option PaperDoc) (url : String) :
    Option String × Engine :=
  let new_id := e.last_json_id
  let doc_id := "P" ++ toString new_id
  let e1 := { e with last_json_id := new_id + 1,
                     total_documents := e.total_documents + 1 }
  match content with
  | none => (none, e1)
  | some doc =>
    let hitlists := process_json_file doc_id doc
    let e2 := hitlists.foldl (fun acc wh =>
      match acc.barrels_index wh.1 with
      | some bi =>
        { acc with pending_count := bumpPending acc.pending_count bi.1,
                   pending_words := addPendingWord acc.pending_words bi.1 wh.1,
                   temp_assoc := addTempAssoc acc.temp_assoc wh.1 wh.2 }
      | none => acc) e1
    let e3 := { e2 with embeddings_rows := e2.embeddings_rows + 1,
                        rps_info_map := e2.rps_info_map ++ [(toString new_id, (doc.title, url))] }
    (some doc_id, e3)

/-- `SearchEngine.merge_in_bg`: no-op for an untouched barrel; otherwise
drain every pending word with an overlay entry into the barrel's delta
store, delete the overlay entries and zero the barrel's pending counter
(the pending word set itself is NOT cleared, matching the source). -/
def merge_in_bg (e : Engine) (barrel_id : Nat) : Engine :=
  if (assocFind e.pending_count barrel_id).isNone then e
  else
    let words := (assocFind e.pending_words barrel_id).getD []
    let e1 := words.foldl (fun acc w =>
      match assocFind acc.temp_assoc w with
      | some hls =>
        let idx := ((acc.barrels_index w).getD (0, 0)).2
        { acc with
          barrels := fun i =>
            if i = barrel_id then append_delta (acc.barrels i) idx hls
            else acc.barrels i,
          temp_assoc := acc.temp_assoc.filter (fun p => !(p.1 == w)) }
      | none => acc) e
    { e1 with pending_count := e1.pending_count.map (fun p =>
        if p.1 == barrel_id then (p.1, 0) else p) }

/-- A score environment whose static tables are all empty/zero. -/
def plainEnv : ScoreEnv :=
  { mathlog := fun _ => 0, doc_id_to_url := fun _ => "", page_rank := fun _ => 0,
    domain_rank := fun _ => 0, citation := fun _ => 0, netloc := fun _ => "",
    rps_info := fun _ => ("", "") }

/-- An engine with empty barrels, cache, overlay and barrel index. -/
def emptyEngine : Engine :=
  { last_json_id := 0, total_documents := 0, word_cache := [], temp_assoc := [],
    pending_count := [], pending_words := [],
    barrels := fun _ => { base := fun _ => none, delta := fun _ => [] },
    barrels_index := fun _ => none, embeddings_rows := 0, rps_info_map := [] }

/-- C10: in the semantic-only branch — no query token present in the
barrel index, semantic in use and available — every returned result has a
strictly positive semantic score, a final score equal to
`semantic_weight * semantic_score`, and an empty positions list. -/
theorem c10_semantic_only_branch (base : ScoreEnv) (e : Engine)
    (semScores : List (String × ℚ)) (query : String) (w : ℚ)
    (h1 : (process_query query true).filter (fun t => (e.barrels_index t).isSome) = [])
    (h2 : (process_query query false).filter (fun t => (e.barrels_index t).isSome) = []) :
    ∀ r ∈ (searchEngine true true base e semScores query true w).1,
      0 < r.semantic_score ∧ r.final_score = w * r.semantic_score ∧ r.positions = [] := by
  intro r hr
  unfold searchEngine at hr
  rw [if_pos rfl] at hr
  dsimp only at hr
  rw [h1, h2] at hr
  simp only [List.nil_append, firstDedup, lookupTokens, searchCore, Bool.and_self,
    if_true] at hr
  rw [mem_sortByFinalDesc] at hr
  unfold semanticOnly at hr
  rcases List.mem_map.mp hr with ⟨ds, hmem, hreq⟩
  have hfilter := (List.mem_filter.mp hmem).2
  simp only [Bool.not_eq_true', decide_eq_false_iff_not, not_le] at hfilter
  subst hreq
  exact ⟨hfilter, rfl, rfl⟩

/-- C10 witness: the semantic-only branch on a concrete engine whose
barrel index is empty, query `"zz"`, one document with similarity 1. -/
theorem c10_witness :
    ((process_query "zz" true).filter
        (fun t => (emptyEngine.barrels_index t).isSome) = []
      ∧ (process_query "zz" false).filter
        (fun t => (emptyEngine.barrels_index t).isSome) = [])
    ∧ ∀ r ∈ (searchEngine true true plainEnv emptyEngine [("P0", 1)] "zz" true 20).1,
        0 < r.semantic_score ∧ r.final_score = 20 * r.semantic_score
        ∧ r.positions = [] :=
  ⟨⟨by decide, by decide⟩,
    c10_semantic_only_branch plainEnv emptyEngine [("P0", 1)] "zz" 20
      (by decide) (by decide)⟩

/-- C3: on malformed document bytes (`orjson.loads` raises), ingest
aborts with no document id, but `last_json_id` and `total_documents` ARE
already incremented when the exception escapes; the overlay, pending
structures, embedding row count and paper-info mapping are unchanged. -/
theorem c3_malformed_ingest_mutates_counters (e : Engine) (url : String) :
    (index_new_rps e none url).1 = none
    ∧ (index_new_rps e none url).2.last_json_id = e.last_json_id + 1
    ∧ (index_new_rps e none url).2.total_documents = e.total_documents + 1
    ∧ (index_new_rps e none url).2.temp_assoc = e.temp_assoc
    ∧ (index_new_rps e none url).2.pending_count = e.pending_count
    ∧ (index_new_rps e none url).2.pending_words = e.pending_words
    ∧ (index_new_rps e none url).2.embeddings_rows = e.embeddings_rows
    ∧ (index_new_rps e none url).2.rps_info_map = e.rps_info_map
    ∧ (index_new_rps e none url).2.word_cache = e.word_cache :=
  ⟨rfl, rfl, rfl, rfl, rfl, rfl, rfl, rfl, rfl⟩

/-- Base posting for `aa`: one hitlist on paper `P1`. -/
def c1Hit1 : Hitlist := { docId := "P1", positions := [0], counters := [1, 0, 0, 1, 1] }

/-- Base posting for `bb`: one hitlist on paper `P2`. -/
def c1Hit2 : Hitlist := { docId := "P2", positions := [0], counters := [1, 0, 0, 1, 1] }

/-- An engine indexing `aa` (posting: P1) and `bb` (posting: P2): the
query `"aa bb"` has both tokens in the barrel index but an empty doc-id
intersection. -/
def c1Engine : Engine :=
  { last_json_id := 3, total_documents := 3, word_cache := [], temp_assoc := [],
    pending_count := [], pending_words := [],
    barrels := fun _ =>
      { base := fun i =>
          if i = 1 then some [c1Hit1] else if i = 2 then some [c1Hit2] else none,
        delta := fun _ => [] },
    barrels_index := fun w =>
      if w = "aa" then some (0, 1) else if w = "bb" then some (0, 2) else none,
    embeddings_rows := 3, rps_info_map := [] }

/-- C1: on the query `"aa bb"` — tokens in the barrel index, empty
intersection — with semantic enabled, available, and a document of
positive similarity, `search` returns the EMPTY list even though the
semantic-only result list it builds (and never returns) is nonempty: the
empty-intersection branch falls through without its `return`. -/
theorem c1_dead_semantic_branch :
    (searchEngine true true plainEnv c1Engine [("P1", 1)] "aa bb" true 20).1 = []
    ∧ semanticOnly plainEnv [("P1", 1)] 20 ≠ [] :=
  ⟨by decide, by decide⟩

/-- The S4 paper: its only token stream entry is `alpha` (title). -/
def c2Paper : PaperDoc :=
  { title := "alpha", abstractTexts := [], authors := [], bodyTexts := [],
    bibTitles := [], refTexts := [], backTexts := [] }

/-- Pre-existing base posting for `alpha`: one hitlist on paper `P0`. -/
def c2HitOld : Hitlist := { docId := "P0", positions := [0], counters := [1, 0, 0, 1, 1] }

/-- Engine before the S4 ingest: `alpha` lives in barrel 0 at word index
7 with base posting `[P0]`; cache and overlay empty; one paper indexed. -/
def c2Engine0 : Engine :=
  { last_json_id := 1, total_documents := 2, word_cache := [], temp_assoc := [],
    pending_count := [], pending_words := [],
    barrels := fun _ =>
      { base := fun i => if i = 7 then some [c2HitOld] else none,
        delta := fun _ => [] },
    barrels_index := fun w => if w = "alpha" then some (0, 7) else none,
    embeddings_rows := 2, rps_info_map := [("0", ("", ""))] }

/-- Engine after ingesting the S4 paper (doc `P1`, overlay entry for
`alpha`). -/
def c2Engine1 : Engine := (index_new_rps c2Engine0 (some c2Paper) "u").2

/-- First search for `"alpha"` after the ingest: results plus the engine
whose word cache now holds the base posting list fetched on the miss. -/
def c2Search1 : List SearchResult × Engine :=
  searchEngine true true plainEnv c2Engine1 [] "alpha" false 20

/-- Engine after the background merge of barrel 0. -/
def c2Engine2 : Engine := merge_in_bg c2Search1.2 0

/-- The repeated search for `"alpha"` after the merge. -/
def c2Search2 : List SearchResult × Engine :=
  searchEngine true true plainEnv c2Engine2 [] "alpha" false 20

unseal Rat.mul Rat.add Rat.sub Rat.inv Rat.ofScientific in
/-- C2: the search issued right after the ingest does return the new
document `P1` (via the overlay), but repeating the same search after
`merge_in_bg` does NOT: the first search cached the base posting list,
the merge drains the overlay without invalidating the cache, and the
stale cache entry hides the newly ingested document — the results are
not unchanged. -/
theorem c2_stale_cache_after_merge :
    "P1" ∈ c2Search1.1.map (fun r => r.doc_id)
    ∧ "P1" ∉ c2Search2.1.map (fun r => r.doc_id) :=
  ⟨by decide, by decide⟩
